import Mathlib

/-!
Verification development for the MEC-Postgres MCP server
(`src/postgres/dist/index_2.js`).  The file embeds, as executable Lean
definitions, the parts of the source needed to settle the frozen claims:

* the table-name derivation `getTableNameFromFileName`;
* the CSV-ingestion engine `processCsvUpload` (statement text builders,
  per-record classification, mutation, summary accounting, transactional
  commit/rollback), over an abstract relational store;
* the read-only `query` tool handlers (both source variants).

JavaScript strings are embedded as their character lists (`Str`), records
as ordered association lists from column name to text value, and the
database as an association list from table name to table.
-/

set_option autoImplicit false

namespace MEC

/-- A JavaScript string, embedded as its list of characters. -/
abbrev Str := List Char

/-- Coerce a Lean string literal to the character-list embedding. -/
def str (s : String) : Str := s.data

/-! ### Table-name derivation (`getTableNameFromFileName`, source lines 820-825)

```js
function getTableNameFromFileName(fileName) {
  const baseName = fileName.split('.')[0];
  return baseName.replace(/[^a-zA-Z0-9]/g, '_').toLowerCase();
}
```
-/

/-- The 62 characters matched by the JavaScript regex class `[a-zA-Z0-9]`. -/
def alnumChars : Str :=
  str "abcdefghijklmnopqrstuvwxyzABCDEFGHIJKLMNOPQRSTUVWXYZ0123456789"

/-- Membership in the regex class `[a-zA-Z0-9]`. -/
def jsIsAlnum (c : Char) : Bool := alnumChars.contains c

/-- One character of `replace(/[^a-zA-Z0-9]/g, '_')`: a character outside
`[a-zA-Z0-9]` becomes an underscore. -/
def jsReplaceChar (c : Char) : Char := if jsIsAlnum c then c else '_'

/-- `replace(/[^a-zA-Z0-9]/g, '_')` over the whole string. -/
def jsReplace (cs : Str) : Str := cs.map jsReplaceChar

/-- The ASCII upper-to-lower table used by `toLowerCase()` on the characters
that can occur here (after the replace step only `[a-zA-Z0-9_]` remain, so
the ASCII table is exact). -/
def lowerPairs : List (Char × Char) :=
  (str "ABCDEFGHIJKLMNOPQRSTUVWXYZ").zip (str "abcdefghijklmnopqrstuvwxyz")

/-- `toLowerCase()` on one character. -/
def jsLowerChar (c : Char) : Char := (List.lookup c lowerPairs).getD c

/-- `toLowerCase()` over the whole string. -/
def jsToLower (cs : Str) : Str := cs.map jsLowerChar

/-- `fileName.split('.')[0]`: the prefix of the string before the first
dot (the whole string when there is no dot). -/
def takeBeforeFirstDot (cs : Str) : Str := cs.takeWhile (fun c => c != '.')

/-- `getTableNameFromFileName` (source lines 820-825): prefix before the
first dot, every character outside `[a-zA-Z0-9]` mapped to `_`, lower-cased. -/
def getTableNameFromFileName (cs : Str) : Str :=
  jsToLower (jsReplace (takeBeforeFirstDot cs))

/-- Modelled from the spec: "derived deterministically from the source name
by *stripping the extension* and mapping every character outside
`[A-Za-z0-9]` to `_`, lower-cased."  Stripping the extension removes the
final dot and everything after it (a name with no dot is unchanged). -/
def stripExtensionSpec : Str → Str
  | [] => []
  | c :: cs =>
    if '.' ∈ cs then c :: stripExtensionSpec cs
    else if c = '.' then [] else c :: cs

/-- The table name the spec sentence describes: extension stripped, then
the same replace and lower-case steps. -/
def derivedNameSpec (cs : Str) : Str :=
  jsToLower (jsReplace (stripExtensionSpec cs))

/-- Characters allowed in a derived table name: `[a-z0-9_]`. -/
def isTableNameSafe (c : Char) : Bool :=
  (str "abcdefghijklmnopqrstuvwxyz0123456789_").contains c

/-! ### Data model

A decoded CSV record is an ordered association list from column name to
text value (`csv-parse` with `columns: true` yields string values).  A
table stores its column list and its rows; the database maps table names
to tables. -/

/-- One decoded CSV record: ordered column-name/value pairs. -/
abbrev Record := List (Str × Str)

/-- A stored table: column list and rows (each row a record). -/
structure Table where
  cols : List Str
  rows : List Record
  deriving DecidableEq

/-- The database: association list from table name to table. -/
abbrev Db := List (Str × Table)

/-- `Object.keys(row)`. -/
def rowKeys (row : Record) : List Str := row.map Prod.fst

/-- `Object.values(row)`: the bound-parameter list the source supplies. -/
def rowValues (row : Record) : List Str := row.map Prod.snd

/-- `row.id` when the row has an `id` key (exact, case-sensitive, as in
`row.hasOwnProperty("id")`). -/
def rowId (row : Record) : Option Str := List.lookup (str "id") row

/-- `row.hasOwnProperty("id") && row.id !== null && row.id !== ''`. -/
def hasUsableId (row : Record) : Bool :=
  match rowId row with
  | some v => !v.isEmpty
  | none => false

/-- `Object.keys(row).filter((col) => col !== "id")` with their values. -/
def colsToUpdate (row : Record) : List (Str × Str) :=
  row.filter (fun p => p.1 != str "id")

/-! ### Statement text builders

Each builder produces exactly the statement text assembled by the source
template literals.  Note the source slip reproduced faithfully here: the
Policy-B lookup, the insert and the update write `${index + 1}` (a literal
integer) where a placeholder `$n` was evidently intended, so those texts
contain no `$` at all outside the one literal `$1` of the id lookups. -/

/-- A double-quoted identifier, as interpolated by `"${name}"`. -/
def quoteId (s : Str) : Str := '"' :: (s ++ ['"'])

/-- Decimal rendering of a number interpolated into statement text. -/
def natStr (n : Nat) : Str := (Nat.repr n).data

/-- `SELECT 1 FROM "t" LIMIT 1` (table-existence probe, line 864). -/
def probeText (t : Str) : Str :=
  str "SELECT 1 FROM " ++ quoteId t ++ str " LIMIT 1"

/-- One column definition of the CREATE TABLE statement (lines 877-884):
a column whose name lower-cases to `id` becomes the TEXT primary key. -/
def colDefText (c : Str) : Str :=
  if jsToLower c = str "id" then quoteId c ++ str " TEXT PRIMARY KEY"
  else quoteId c ++ str " TEXT"

/-- `CREATE TABLE "t" (...);` (line 886). -/
def createText (t : Str) (cols : List Str) : Str :=
  str "CREATE TABLE " ++ quoteId t ++ str " (" ++
    List.intercalate (str ", ") (cols.map colDefText) ++ str ");"

/-- `SELECT * FROM "t" WHERE "id" = $1` (line 896). -/
def selectByIdText (t : Str) : Str :=
  str "SELECT * FROM " ++ quoteId t ++ str " WHERE " ++ quoteId (str "id") ++
    str " = $1"

/-- One conjunct `"col" = k` of the Policy-B WHERE clause (line 905).
The source writes `${index + 1}`, not `$${index + 1}`, so the right-hand
side is the literal decimal number, not a placeholder. -/
def eqLiteralText (c : Str) (k : Nat) : Str :=
  quoteId c ++ str " = " ++ natStr k

/-- The Policy-B WHERE clause: per-column conjuncts joined by AND
(lines 903-906); empty for a record with no fields. -/
def whereAllText (row : Record) : Str :=
  List.intercalate (str " AND ")
    ((rowKeys row).enum.map (fun p => eqLiteralText p.2 (p.1 + 1)))

/-- `SELECT * FROM "t" WHERE ...` for the all-columns lookup (line 908). -/
def selectByAllText (t : Str) (row : Record) : Str :=
  str "SELECT * FROM " ++ quoteId t ++ str " WHERE " ++ whereAllText row

/-- `INSERT INTO "t" ("c1", ...) VALUES (1, 2, ...)` (lines 938-942);
the VALUES list carries literal numbers `1, 2, ...`, no placeholders. -/
def insertText (t : Str) (row : Record) : Str :=
  str "INSERT INTO " ++ quoteId t ++ str " (" ++
    List.intercalate (str ", ") ((rowKeys row).map quoteId) ++
    str ") VALUES (" ++
    List.intercalate (str ", ") ((rowKeys row).enum.map (fun p => natStr (p.1 + 1))) ++
    str ")"

/-- `UPDATE "t" SET "c" = 2, ... WHERE "id" = $1` (lines 923-928); the SET
right-hand sides are literal numbers `${index + 2}`, only the WHERE carries
a real placeholder `$1`. -/
def updateText (t : Str) (cols2 : List Str) : Str :=
  str "UPDATE " ++ quoteId t ++ str " SET " ++
    List.intercalate (str ", ")
      (cols2.enum.map (fun p => eqLiteralText p.2 (p.1 + 2))) ++
    str " WHERE " ++ quoteId (str "id") ++ str " = $1"

/-! ### Placeholder scan

Postgres resolves `$n` placeholders outside double-quoted identifiers.
`paramsNeeded` counts the `$`-digit occurrences of a statement text the
way the server's lexer does (quote-aware); a bind supplying a different
number of parameters than the text requires is rejected. -/

/-- Scanner state: inside-quotes flag, previous-char-was-dollar flag,
count so far. -/
def phStep : Bool × Bool × Nat → Char → Bool × Bool × Nat
  | (inq, pd, n), c =>
    if c == '"' then (!inq, false, n)
    else if pd && c.isDigit && !inq then (inq, false, n + 1)
    else (inq, c == '$', n)

/-- Number of `$n` placeholders a statement text requires (each statement
built here uses a placeholder at most once, so count equals max index). -/
def paramsNeeded (cs : Str) : Nat := (cs.foldl phStep (false, false, 0)).2.2

/-- A character that is neither a double quote nor a dollar sign: such
characters never change the placeholder scanner's quote state or count. -/
def plainChar (c : Char) : Bool := !(c == '"') && !(c == '$')

/-- A text fragment that, scanned outside quotes with no pending dollar,
returns the scanner to that same state with the count unchanged. -/
def PhNeutral (seg : Str) : Prop :=
  ∀ n : Nat, seg.foldl phStep (false, false, n) = (false, false, n)

/-! ### Quoted-identifier scan (for the identifier-quoting claims) -/

/-- The first double-quoted span of a statement text: the characters
between the first `"` and the next `"`. -/
def firstQuotedIdent (cs : Str) : Option Str :=
  match cs.dropWhile (fun c => c != '"') with
  | [] => none
  | _ :: rest => some (rest.takeWhile (fun c => c != '"'))

/-! ### Statement execution semantics

`client.query(text, params)` runs against Postgres.  The statements whose
text carries as many placeholders as supplied parameters execute their
structured meaning; the three statements that lost their `$` signs
(Policy-B lookup, insert, update) supply parameters a placeholder-free
text cannot bind, so the server rejects the bind — and the zero-conjunct
variant of the Policy-B lookup is already malformed at parse time. -/

/-- A statement failure inside the transaction. -/
inductive QErr
  /-- The bind supplies a different number of parameters than the
  statement text requires (the missing-`$` slip). -/
  | bindMismatch
  /-- The statement text is malformed (e.g. an empty WHERE clause). -/
  | malformedStatement
  /-- A referenced column does not exist in the table. -/
  | undefinedColumn
  deriving DecidableEq

/-- Whether the stored table has an `id` column. -/
def tableHasIdCol (tbl : Table) : Bool := tbl.cols.contains (str "id")

/-- `SELECT * FROM "t" WHERE "id" = $1` with parameter `v`
(`paramsNeeded = 1`, one parameter supplied: executes).  Fails only when
the table has no `id` column; otherwise returns the rows whose `id`
column equals `v`. -/
def execSelectById (tbl : Table) (v : Str) : Except QErr (List Record) :=
  if tableHasIdCol tbl then
    .ok (tbl.rows.filter (fun r => List.lookup (str "id") r == some v))
  else .error .undefinedColumn

/-- The Policy-B lookup `SELECT * FROM "t" WHERE "c1" = 1 AND ...` with
the row's values supplied as parameters.  For an empty record the WHERE
clause is empty (`paramsNeeded = 0` but the text is malformed); for a
non-empty record the text needs 0 parameters while `Object.values(row)`
supplies at least one, so the bind is rejected.  It never succeeds. -/
def execSelectByAll (row : Record) : Except QErr (List Record) :=
  .error (if row.isEmpty then .malformedStatement else .bindMismatch)

/-- `INSERT INTO "t" (...) VALUES (1, 2, ...)` with the row's values as
parameters: an empty column list is malformed, and otherwise the text
needs 0 parameters while at least one is supplied.  It never succeeds. -/
def execInsertErr (row : Record) : QErr :=
  if row.isEmpty then .malformedStatement else .bindMismatch

/-- `UPDATE "t" SET "c" = 2, ... WHERE "id" = $1` with `[row.id, ...values]`
as parameters: the text needs exactly 1 parameter (`$1`) while
`1 + columnsToUpdate.length ≥ 2` are supplied.  It never succeeds.  (The
source only issues the update when `columnsToUpdate` is non-empty.) -/
def execUpdateErr : QErr := .bindMismatch

/-! ### Per-record processing (source lines 891-947) -/

/-- What one record contributed to the summary. -/
inductive Action
  /-- `summary[tableName].created += 1` (line 945). -/
  | created
  /-- `summary[tableName].updated += 1` (line 931). -/
  | updated
  /-- `summary[tableName].skipped += 1` (line 934): existing record with
  no usable id. -/
  | skippedNoId
  /-- No counter touched: existing record whose usable id is its only
  field (`columnsToUpdate.length === 0`, lines 922-932 have no else). -/
  | uncountedIdOnly
  deriving DecidableEq

/-- The per-table counters of the returned summary. -/
structure Summary where
  created : Nat
  updated : Nat
  skipped : Nat
  deriving DecidableEq

/-- Fold one record's action into the summary, exactly as the source
increments the counters (no branch touches a counter twice, and the
id-only-update path touches none). -/
def applyAction (s : Summary) : Action → Summary
  | .created => { s with created := s.created + 1 }
  | .updated => { s with updated := s.updated + 1 }
  | .skippedNoId => { s with skipped := s.skipped + 1 }
  | .uncountedIdOnly => s

/-- The summary accumulated over a list of actions. -/
def summarize (as : List Action) : Summary :=
  as.foldl applyAction ⟨0, 0, 0⟩

/-- How many records of a committed batch touched no counter (existing
rows whose only field was the identifier). -/
def uncountedCount : List Action → Nat
  | [] => 0
  | .uncountedIdOnly :: as => uncountedCount as + 1
  | _ :: as => uncountedCount as

/-- Process one record of the loop body (lines 891-947): classify it
(Policy A by id when a usable id is present, Policy B all-columns
otherwise), then insert / update / skip.  Returns the statement texts
executed for this record together with either the failure that aborts
the batch or the updated table and the record's summary action. -/
def stepRecord (t : Str) (tbl : Table) (row : Record) :
    List Str × Except QErr (Table × Action) :=
  if hasUsableId row then
    match execSelectById tbl ((rowId row).getD []) with
    | .error e => ([selectByIdText t], .error e)
    | .ok found =>
      if found.isEmpty then
        ([selectByIdText t, insertText t row], .error (execInsertErr row))
      else
        if (colsToUpdate row).isEmpty then
          ([selectByIdText t], .ok (tbl, .uncountedIdOnly))
        else
          ([selectByIdText t, updateText t (rowKeys (colsToUpdate row))],
            .error execUpdateErr)
  else
    match execSelectByAll row with
    | .error e => ([selectByAllText t row], .error e)
    | .ok found =>
      if found.isEmpty then
        ([selectByAllText t row, insertText t row], .error (execInsertErr row))
      else
        ([selectByAllText t row], .ok (tbl, .skippedNoId))

/-- The record loop, in input order: the first statement failure aborts
with that error; otherwise the per-record actions are collected. -/
def runRecords (t : Str) (tbl : Table) :
    List Record → List Str × Except QErr (Table × List Action)
  | [] => ([], .ok (tbl, []))
  | r :: rs =>
    match stepRecord t tbl r with
    | (stmts, .error e) => (stmts, .error e)
    | (stmts, .ok (tbl2, a)) =>
      match runRecords t tbl2 rs with
      | (stmts2, .error e) => (stmts ++ stmts2, .error e)
      | (stmts2, .ok (tbl3, as)) => (stmts ++ stmts2, .ok (tbl3, a :: as))

/-- Replace the stored table under name `t`. -/
def dbReplace (db : Db) (t : Str) (tbl : Table) : Db :=
  db.map (fun p => if p.1 == t then (t, tbl) else p)

instance {ε α : Type} [DecidableEq ε] [DecidableEq α] : DecidableEq (Except ε α) := fun x y =>
  match x, y with
  | .error a, .error b =>
    if h : a = b then .isTrue (congrArg Except.error h)
    else .isFalse (fun hc => h (Except.error.inj hc))
  | .ok a, .ok b =>
    if h : a = b then .isTrue (congrArg Except.ok h)
    else .isFalse (fun hc => h (Except.ok.inj hc))
  | .error _, .ok _ => .isFalse (fun hc => Except.noConfusion hc)
  | .ok _, .error _ => .isFalse (fun hc => Except.noConfusion hc)

/-- The result of one `processCsvUpload` call: the persistent database
after the call (rolled back to the argument on failure), the outcome
(summary on commit, first statement error otherwise), the statement texts
executed inside the transaction, and the per-record actions of a committed
run. -/
structure UploadResult where
  db : Db
  outcome : Except QErr Summary
  trace : List Str
  actions : List Action
  deriving DecidableEq

/-- `processCsvUpload` (source lines 836-958) over already-parsed records:
empty input returns an all-zero summary before any transaction opens;
otherwise one transaction probes for the table (`SELECT 1 ... LIMIT 1`,
any error meaning "absent"), creates it from the first record's keys when
absent, runs the record loop, and commits — any statement failure rolls
the whole batch back and propagates the error, so the persistent database
is unchanged on failure. -/
def processCsvUpload (db : Db) (t : Str) (records : List Record) : UploadResult :=
  match records with
  | [] => ⟨db, .ok ⟨0, 0, 0⟩, [], []⟩
  | r0 :: rest =>
    match List.lookup t db with
    | some tbl =>
      match runRecords t tbl (r0 :: rest) with
      | (stmts, .error e) => ⟨db, .error e, probeText t :: stmts, []⟩
      | (stmts, .ok (tbl2, as)) =>
        ⟨dbReplace db t tbl2, .ok (summarize as), probeText t :: stmts, as⟩
    | none =>
      match runRecords t ⟨rowKeys r0, []⟩ (r0 :: rest) with
      | (stmts, .error e) =>
        ⟨db, .error e, probeText t :: createText t (rowKeys r0) :: stmts, []⟩
      | (stmts, .ok (tbl2, as)) =>
        ⟨db ++ [(t, tbl2)], .ok (summarize as),
          probeText t :: createText t (rowKeys r0) :: stmts, as⟩

/-! ### The read-only `query` tool (source lines 272-298 and 704-757)

Both handler variants acquire a connection, run
`BEGIN TRANSACTION READ ONLY`, execute the caller's statement, and in the
`finally` block issue `ROLLBACK` (its own failure only logged) and release
the connection.  On a statement failure variant 1 rethrows the error out
of the handler (`catch (error) { throw error; }`), while variant 2 returns
`{ content: [...], isError: true }`.

The caller's statement is modelled as an arbitrary function from the
working database to either a failure or a (possibly mutated) working
database plus result rows — covering even a write the read-only mode
failed to reject, since the claims rest on the rollback alone. -/

/-- An arbitrary caller-supplied statement, as its effect on the working
state inside the transaction. -/
abbrev Stmt := Db → Except QErr (Db × List Record)

/-- What the handler does with the connection, in order. -/
inductive QAct
  /-- `BEGIN TRANSACTION READ ONLY`. -/
  | tbegin
  /-- Execution of the caller's statement. -/
  | texec
  /-- `ROLLBACK` in the `finally` block. -/
  | trollback
  /-- `client.release()`. -/
  | trelease
  deriving DecidableEq

/-- What the handler hands back: a structured tool result (rows with
`isError: false`, or an error payload with `isError: true`), or an
exception thrown out of the handler. -/
inductive Outcome
  /-- `{ content: [rows...], isError: false }`. -/
  | rows (rs : List Record)
  /-- `{ content: [error text], isError: true }`. -/
  | errorResult (e : QErr)
  /-- The error propagates as a thrown exception. -/
  | thrown (e : QErr)
  deriving DecidableEq

/-- The `isError` flag of a structured result (`none` when nothing was
returned because the handler threw). -/
def Outcome.isErrorFlag : Outcome → Option Bool
  | .rows _ => some false
  | .errorResult _ => some true
  | .thrown _ => none

/-- One `query` tool call: persistent database after the call, the
handler's outcome, the connection actions in order, and whether a rollback
failure was logged (never escalated). -/
structure ToolRun where
  db : Db
  outcome : Outcome
  acts : List QAct
  rollbackWarned : Bool
  deriving DecidableEq

/-- Variant 1 of the `query` tool (lines 272-298): statement errors are
rethrown after the `finally` block rolls back and releases.  The working
database produced by the statement is discarded by the rollback, so the
persistent database is the one from before the call. -/
def queryToolV1 (db : Db) (stmt : Stmt) (rollbackFails : Bool) : ToolRun :=
  match stmt db with
  | .ok (_, rs) =>
    ⟨db, .rows rs, [.tbegin, .texec, .trollback, .trelease], rollbackFails⟩
  | .error e =>
    ⟨db, .thrown e, [.tbegin, .texec, .trollback, .trelease], rollbackFails⟩

/-- Variant 2 of the `query` tool (lines 704-757): statement errors are
returned as a structured `isError: true` result; the `finally` block
likewise rolls back (failure only logged) and releases. -/
def queryToolV2 (db : Db) (stmt : Stmt) (rollbackFails : Bool) : ToolRun :=
  match stmt db with
  | .ok (_, rs) =>
    ⟨db, .rows rs, [.tbegin, .texec, .trollback, .trelease], rollbackFails⟩
  | .error e =>
    ⟨db, .errorResult e, [.tbegin, .texec, .trollback, .trelease], rollbackFails⟩

/-- `ROLLBACK` is issued, and the connection is released only afterwards:
the first rollback/release action to occur is a rollback, and a release
does occur after it. -/
def rollbackBeforeRelease : List QAct → Bool
  | [] => false
  | .trollback :: rest => rest.contains .trelease
  | .trelease :: _ => false
  | _ :: rest => rollbackBeforeRelease rest

/-- A statement that always fails. -/
def failStmt : Stmt := fun _ => .error .malformedStatement

/-! ## Helper lemmas -/

/-- A string with no dot is unchanged by `takeWhile (c != '.')`. -/
lemma takeWhile_ne_dot_of_not_mem :
    ∀ cs : Str, '.' ∉ cs → cs.takeWhile (fun c => c != '.') = cs := by
  intro cs h
  induction cs with
  | nil => rfl
  | cons c cs ih =>
    simp only [List.mem_cons, not_or] at h
    have hc : (c != '.') = true := by
      simp only [bne_iff_ne, ne_eq]
      exact fun hcd => h.1 hcd.symm
    simp [List.takeWhile_cons, hc, ih h.2]

/-- On a file name with at most one dot, the prefix before the first dot
is exactly the name with its extension stripped. -/
lemma takeBefore_eq_stripExtension :
    ∀ cs : Str, cs.count '.' ≤ 1 →
      takeBeforeFirstDot cs = stripExtensionSpec cs := by
  intro cs h
  induction cs with
  | nil => rfl
  | cons c cs ih =>
    by_cases hc : c = '.'
    · subst hc
      have hz : cs.count '.' = 0 := by
        have := List.count_cons_self ('.' : Char) cs
        omega

      have hnm : '.' ∉ cs := by
        rw [← List.count_eq_zero]
        exact hz
      simp [takeBeforeFirstDot, stripExtensionSpec, List.takeWhile_cons, hnm]
    · have hcnt : cs.count '.' ≤ 1 := by
        rw [List.count_cons] at h
        omega
      have hbne : (c != '.') = true := by simp [bne_iff_ne, hc]
      by_cases hin : '.' ∈ cs
      · simp only [takeBeforeFirstDot, List.takeWhile_cons, hbne, if_true,
          stripExtensionSpec, if_pos hin]
        exact congrArg (c :: ·) (ih hcnt)
      · simp only [takeBeforeFirstDot, List.takeWhile_cons, hbne, if_true,
          stripExtensionSpec, if_neg hin, if_neg hc]
        exact congrArg (c :: ·) (takeWhile_ne_dot_of_not_mem cs hin)

/-- Every character of the regex class, after the lower-case table, is a
safe table-name character (checked by evaluation over the 62 characters). -/
lemma alnum_all_lower_safe :
    alnumChars.all (fun c => isTableNameSafe (jsLowerChar c)) = true := by decide

/-- Pointwise: replace-then-lower always yields a character in `[a-z0-9_]`. -/
lemma safeChar_point (c : Char) :
    isTableNameSafe (jsLowerChar (jsReplaceChar c)) = true := by
  unfold jsReplaceChar
  by_cases h : jsIsAlnum c = true
  · rw [if_pos h]
    have hmem : c ∈ alnumChars := by
      unfold jsIsAlnum at h
      simpa using h
    exact List.all_eq_true.mp alnum_all_lower_safe c hmem
  · rw [if_neg h]
    decide

/-! ## Claim C10 -/

/-- Claim C10 (confirmed): for every input file name, every character of
the derived table name `getTableNameFromFileName` lies in `[a-z0-9_]`; in
particular it can never contain a quote character or any SQL
metacharacter. -/
theorem c10_safe_table_name :
    ∀ cs : Str, (getTableNameFromFileName cs).all isTableNameSafe = true := by
  intro cs
  unfold getTableNameFromFileName jsToLower jsReplace
  rw [List.all_eq_true]
  intro x hx
  simp only [List.map_map, List.mem_map] at hx
  rcases hx with ⟨c, _, rfl⟩
  exact safeChar_point c

/-! ## Claim C6 -/

/-- Claim C6 (counterexample): the claim says the table name is derived by
*stripping the extension*; the source cuts at the *first* dot instead, and
the two differ on `a.b.csv` (`a` versus `a_b`). -/
theorem c6_table_name_counterexample :
    getTableNameFromFileName (str "a.b.csv") = str "a"
    ∧ derivedNameSpec (str "a.b.csv") = str "a_b"
    ∧ getTableNameFromFileName (str "a.b.csv") ≠ derivedNameSpec (str "a.b.csv") := by
  refine ⟨by decide, by decide, by decide⟩

/-- Claim C6 (amended): the derived table name is the part of the file
name before the *first* dot, with every character outside `[A-Za-z0-9]`
mapped to `_`, lower-cased; this coincides with stripping the extension
whenever the file name has at most one dot, and `My Report.csv` yields
`my_report`. -/
theorem c6_table_name_amended :
    ∀ cs : Str,
      (cs.count '.' ≤ 1 → getTableNameFromFileName cs = derivedNameSpec cs)
      ∧ getTableNameFromFileName (str "My Report.csv") = str "my_report" := by
  intro cs
  refine ⟨fun h => ?_, by decide⟩
  unfold getTableNameFromFileName derivedNameSpec
  rw [takeBefore_eq_stripExtension cs h]

/-- Claim C6 (witness): the amended equation instantiated at
`My Report.csv`, which has one dot. -/
theorem c6_table_name_witness :
    (str "My Report.csv").count '.' ≤ 1
    ∧ getTableNameFromFileName (str "My Report.csv")
        = derivedNameSpec (str "My Report.csv") :=
  ⟨by decide, (c6_table_name_amended (str "My Report.csv")).1 (by decide)⟩

/-! ## Claim C1 -/

/-- A committed record loop yields one action per record. -/
lemma runRecords_ok_length (t : Str) :
    ∀ (rs : List Record) (tbl tbl2 : Table) (stmts : List Str) (as : List Action),
      runRecords t tbl rs = (stmts, .ok (tbl2, as)) → as.length = rs.length := by
  intro rs
  induction rs with
  | nil =>
    intro tbl tbl2 stmts as h
    simp only [runRecords] at h
    cases h
    rfl
  | cons r rs ih =>
    intro tbl tbl2 stmts as h
    simp only [runRecords] at h
    rcases hs : stepRecord t tbl r with ⟨stmts1, res1⟩
    rw [hs] at h
    cases res1 with
    | error e => simp at h
    | ok p =>
      rcases p with ⟨tblm, a⟩
      try dsimp only at h
      rcases hr : runRecords t tblm rs with ⟨stmts2, res2⟩
      rw [hr] at h
      cases res2 with
      | error e => simp at h
      | ok q =>
        rcases q with ⟨tbl3, as2⟩
        try dsimp only at h
        simp only [Prod.mk.injEq, Except.ok.injEq] at h
        rcases h with ⟨-, -, has⟩
        rw [← has]
        simp only [List.length_cons]
        have := ih tblm tbl3 stmts2 as2 hr
        omega

/-- Folding actions into a summary: the three counters plus the number of
uncounted actions advance together by the number of actions. -/
lemma summarize_fold_count :
    ∀ (as : List Action) (s0 : Summary),
      (as.foldl applyAction s0).created + (as.foldl applyAction s0).updated
        + (as.foldl applyAction s0).skipped + uncountedCount as
      = s0.created + s0.updated + s0.skipped + as.length := by
  intro as
  induction as with
  | nil => intro s0; simp [uncountedCount]
  | cons a as ih =>
    intro s0
    have h2 := ih (applyAction s0 a)
    cases a <;>
      simp only [List.foldl_cons, List.length_cons, uncountedCount, applyAction] at h2 ⊢ <;>
      omega

/-- The summary of a committed action list: counters plus uncounted
records equal the number of records. -/
lemma summarize_count (as : List Action) :
    (summarize as).created + (summarize as).updated + (summarize as).skipped
      + uncountedCount as = as.length := by
  have := summarize_fold_count as ⟨0, 0, 0⟩
  simpa [summarize] using this

/-- Claim C1 (counterexample): a batch of one record whose only field is
the identifier, against a table already holding that id, commits with
summary `0/0/0` although one record was processed — the id-only update
path increments no counter, so `created + updated + skipped ≠ n`. -/
theorem c1_summary_invariant_counterexample :
    (processCsvUpload [(str "t", ⟨[str "id"], [[(str "id", str "1")]]⟩)]
        (str "t") [[(str "id", str "1")]]).outcome = Except.ok ⟨0, 0, 0⟩
    ∧ ([[(str "id", str "1")]] : List Record).length = 1
    ∧ 0 + 0 + 0 ≠ 1 := by
  refine ⟨by decide, by decide, by decide⟩

/-- Claim C1 (amended): at successful completion each record contributes
to at most one counter, and `created + updated + skipped` equals the
number of records processed minus the number of records whose only field
is a non-empty identifier that matched an existing row — those contribute
to no counter. -/
theorem c1_summary_invariant_amended :
    ∀ (db : Db) (t : Str) (records : List Record) (s : Summary),
      (processCsvUpload db t records).outcome = .ok s →
      s.created + s.updated + s.skipped
        + uncountedCount (processCsvUpload db t records).actions
        = records.length := by
  intro db t records s h
  cases records with
  | nil =>
    simp only [processCsvUpload] at h ⊢
    simp only [Except.ok.injEq] at h
    rw [← h]
    simp [uncountedCount]
  | cons r0 rest =>
    simp only [processCsvUpload] at h ⊢
    split at h
    · rename_i tbl heq
      rcases hr : runRecords t tbl (r0 :: rest) with ⟨stmts, res⟩
      cases res with
      | error e =>
        rw [hr] at h
        dsimp only at h
        exact Except.noConfusion h
      | ok q =>
        rcases q with ⟨tbl2, as⟩
        rw [hr] at h
        dsimp only at h
        injection h with h2
        subst h2
        dsimp only
        rw [← runRecords_ok_length t (r0 :: rest) tbl tbl2 stmts as hr]
        exact summarize_count as
    · rename_i heq
      rcases hr : runRecords t ⟨rowKeys r0, []⟩ (r0 :: rest) with ⟨stmts, res⟩
      cases res with
      | error e =>
        rw [hr] at h
        dsimp only at h
        exact Except.noConfusion h
      | ok q =>
        rcases q with ⟨tbl2, as⟩
        rw [hr] at h
        dsimp only at h
        injection h with h2
        subst h2
        dsimp only
        rw [← runRecords_ok_length t (r0 :: rest) ⟨rowKeys r0, []⟩ tbl2 stmts as hr]
        exact summarize_count as

/-- Claim C1 (witness): the amended accounting instantiated at the
committed id-only batch: `0 + 0 + 0` plus one uncounted record equals the
batch size `1`. -/
theorem c1_summary_invariant_witness :
    (processCsvUpload [(str "t", ⟨[str "id"], [[(str "id", str "1")]]⟩)]
        (str "t") [[(str "id", str "1")]]).outcome = Except.ok ⟨0, 0, 0⟩
    ∧ 0 + 0 + 0
        + uncountedCount ((processCsvUpload [(str "t", ⟨[str "id"], [[(str "id", str "1")]]⟩)]
            (str "t") [[(str "id", str "1")]]).actions)
        = ([[(str "id", str "1")]] : List Record).length :=
  ⟨by decide,
    c1_summary_invariant_amended
      [(str "t", ⟨[str "id"], [[(str "id", str "1")]]⟩)]
      (str "t") [[(str "id", str "1")]] ⟨0, 0, 0⟩ (by decide)⟩

/-! ## Claim C5 -/

/-- Claim C5 (confirmed): any statement failure inside the ingestion
transaction aborts the whole batch.  First conjunct: when the call fails,
the persistent database equals the database from before the call (the
`catch` issues ROLLBACK before rethrowing), and no summary accompanies the
error.  Second conjunct: when the first record of a suffix fails, the
whole loop fails with that same error regardless of the records behind it
— no subsequent record is processed. -/
theorem c5_all_or_nothing :
    ∀ (db : Db) (t : Str) (records : List Record),
      (∀ e, (processCsvUpload db t records).outcome = .error e →
        (processCsvUpload db t records).db = db)
      ∧ (∀ (tbl : Table) (r : Record) (rest : List Record) (e : QErr),
          (stepRecord t tbl r).2 = .error e →
          (runRecords t tbl (r :: rest)).2 = .error e) := by
  intro db t records
  constructor
  · intro e h
    cases records with
    | nil =>
      simp only [processCsvUpload] at h
      exact Except.noConfusion h
    | cons r0 rest =>
      simp only [processCsvUpload] at h ⊢
      split at h
      · rename_i tbl heq
        rcases hr : runRecords t tbl (r0 :: rest) with ⟨stmts, res⟩
        rw [hr] at h
        cases res with
        | error e2 => rfl
        | ok q =>
          rcases q with ⟨tbl2, as⟩
          dsimp only at h
          exact Except.noConfusion h
      · rename_i heq
        rcases hr : runRecords t ⟨rowKeys r0, []⟩ (r0 :: rest) with ⟨stmts, res⟩
        rw [hr] at h
        cases res with
        | error e2 => rfl
        | ok q =>
          rcases q with ⟨tbl2, as⟩
          dsimp only at h
          exact Except.noConfusion h
  · intro tbl r rest e h
    simp only [runRecords]
    rcases hs : stepRecord t tbl r with ⟨stmts, res⟩
    rw [hs] at h
    dsimp only at h
    subst h
    rfl

/-- Claim C5 (witness): a concrete batch whose first record's Policy-B
lookup fails: the call errors, the database is unchanged, and the loop
short-circuits with the same error whatever records follow. -/
theorem c5_all_or_nothing_witness :
    (processCsvUpload [] (str "t")
        [[(str "a", str "1")], [(str "b", str "2")]]).db = []
    ∧ (runRecords (str "t") ⟨[str "a"], []⟩
        ([(str "a", str "1")] :: [[(str "b", str "2")]])).2
        = Except.error QErr.bindMismatch :=
  ⟨(c5_all_or_nothing [] (str "t") [[(str "a", str "1")], [(str "b", str "2")]]).1
      QErr.bindMismatch (by decide),
    (c5_all_or_nothing [] (str "t") [[(str "a", str "1")], [(str "b", str "2")]]).2
      ⟨[str "a"], []⟩ [(str "a", str "1")] [[(str "b", str "2")]]
      QErr.bindMismatch (by decide)⟩

/-! ## Claim C2 -/

/-- Claim C2 (code bug, evaluated): two byte-identical records with no id
field are claimed to yield created then skipped; instead the very first
record's all-columns lookup is built as `"name" = 1` — a literal integer
where the placeholder `$1` was intended — so the bind of the one supplied
parameter fails, the batch aborts with an error, the database is unchanged
and nothing is inserted.  The executed statements stop at the probe and
the broken lookup. -/
theorem c2_duplicate_policy_bug :
    (processCsvUpload [(str "t", ⟨[str "name"], []⟩)]
        (str "t") [[(str "name", str "x")], [(str "name", str "x")]]).outcome
      = Except.error QErr.bindMismatch
    ∧ (processCsvUpload [(str "t", ⟨[str "name"], []⟩)]
        (str "t") [[(str "name", str "x")], [(str "name", str "x")]]).db
      = [(str "t", ⟨[str "name"], []⟩)]
    ∧ (processCsvUpload [(str "t", ⟨[str "name"], []⟩)]
        (str "t") [[(str "name", str "x")], [(str "name", str "x")]]).trace
      = [probeText (str "t"),
         selectByAllText (str "t") [(str "name", str "x")]]
    ∧ selectByAllText (str "t") [(str "name", str "x")]
      = str "SELECT * FROM \"t\" WHERE \"name\" = 1" := by
  refine ⟨by decide, by decide, by decide, by decide⟩

/-! ## Claim C8 -/

/-- Claim C8 (code bug, evaluated): values are indeed passed only through
the bound parameter list and never interpolated into statement text — but
the insert, the Policy-B lookup and the update texts contain *no*
placeholders at all (`${index + 1}` was written instead of
`$${index + 1}`), so the supplied parameters have nothing to bind to: the
insert text needs 0 parameters while 2 are supplied, the update text needs
1 while 2 are supplied, and the value string never occurs in the text. -/
theorem c8_placeholder_bug :
    insertText (str "t") [(str "id", str "7"), (str "name", str "x")]
      = str "INSERT INTO \"t\" (\"id\", \"name\") VALUES (1, 2)"
    ∧ paramsNeeded (insertText (str "t") [(str "id", str "7"), (str "name", str "x")]) = 0
    ∧ (rowValues [(str "id", str "7"), (str "name", str "x")]).length = 2
    ∧ paramsNeeded (selectByAllText (str "t") [(str "name", str "x")]) = 0
    ∧ (rowValues [(str "name", str "x")]).length = 1
    ∧ paramsNeeded (updateText (str "t") [str "name"]) = 1
    ∧ ¬ List.IsInfix (str "x") (insertText (str "t") [(str "id", str "7"), (str "name", str "x")])
    ∧ (processCsvUpload [(str "t", ⟨[str "id", str "name"], []⟩)]
        (str "t") [[(str "id", str "7"), (str "name", str "x")]]).outcome
      = Except.error QErr.bindMismatch := by
  refine ⟨by decide, by decide, by decide, by decide, by decide, by decide, by decide, by decide⟩

/-! ## Claim C9 -/

/-- Claim C9 (code bug, evaluated): for a record with no fields the source
builds the Policy-B lookup with an *empty* WHERE clause and executes it —
there is no guard treating the record as new.  The statement text is
`SELECT * FROM "t" WHERE `, the step executes exactly that statement and
fails, and the whole batch aborts instead of inserting the record. -/
theorem c9_empty_record_bug :
    selectByAllText (str "t") [] = str "SELECT * FROM \"t\" WHERE "
    ∧ (stepRecord (str "t") ⟨[str "a"], []⟩ []).1
      = [selectByAllText (str "t") []]
    ∧ (stepRecord (str "t") ⟨[str "a"], []⟩ []).2
      = Except.error QErr.malformedStatement
    ∧ (processCsvUpload [(str "t", ⟨[str "a"], []⟩)] (str "t") [[]]).outcome
      = Except.error QErr.malformedStatement := by
  refine ⟨by decide, by decide, by decide, by decide⟩

/-! ## Claim C3 -/

/-- Claim C3 (confirmed): for every database, every caller-supplied
statement (even one that mutates the working state), and whether or not
the rollback itself fails, both `query` handler variants leave the
persistent database exactly as it was, issue the rollback before the
connection release on their single exit path through `finally`, and a
rollback failure never changes the handler's own result. -/
theorem c3_read_only_rollback :
    ∀ (db : Db) (stmt : Stmt) (rb : Bool),
      (queryToolV1 db stmt rb).db = db
      ∧ (queryToolV2 db stmt rb).db = db
      ∧ rollbackBeforeRelease (queryToolV1 db stmt rb).acts = true
      ∧ rollbackBeforeRelease (queryToolV2 db stmt rb).acts = true
      ∧ (queryToolV1 db stmt rb).outcome = (queryToolV1 db stmt false).outcome
      ∧ (queryToolV2 db stmt rb).outcome = (queryToolV2 db stmt false).outcome
      ∧ (queryToolV1 db stmt true).rollbackWarned = true
      ∧ (queryToolV2 db stmt true).rollbackWarned = true := by
  intro db stmt rb
  cases hst : stmt db with
  | ok p =>
    rcases p with ⟨db2, rs⟩
    simp [queryToolV1, queryToolV2, hst, rollbackBeforeRelease]
  | error e =>
    simp [queryToolV1, queryToolV2, hst, rollbackBeforeRelease]

/-! ## Claim C4 -/

/-- Claim C4 (counterexample): a failing statement submitted to `query`
handler variant 1 does not come back as a structured `isError` result —
the handler rethrows it (`catch (error) { throw error; }`), so the error
reaches the caller's transport as a thrown exception. -/
theorem c4_error_result_counterexample :
    (queryToolV1 [] failStmt false).outcome
      = Outcome.thrown QErr.malformedStatement
    ∧ (queryToolV1 [] failStmt false).outcome.isErrorFlag = none := by
  refine ⟨by decide, by decide⟩

/-- Claim C4 (amended): when the caller's statement fails, handler
variant 2 returns a structured result with the `isError` flag set and
never throws, while handler variant 1 propagates the failure as a thrown
exception (after its `finally` block still rolls back); the claim as
stated holds only for variant 2. -/
theorem c4_error_result_amended :
    ∀ (db : Db) (stmt : Stmt) (e : QErr) (rb : Bool),
      stmt db = .error e →
      (queryToolV2 db stmt rb).outcome = Outcome.errorResult e
      ∧ (queryToolV2 db stmt rb).outcome.isErrorFlag = some true
      ∧ (queryToolV1 db stmt rb).outcome = Outcome.thrown e := by
  intro db stmt e rb h
  refine ⟨?_, ?_, ?_⟩ <;> simp [queryToolV1, queryToolV2, h, Outcome.isErrorFlag]

/-- Claim C4 (witness): the amended statement instantiated at a concrete
failing statement. -/
theorem c4_error_result_witness :
    (queryToolV2 [] failStmt false).outcome
      = Outcome.errorResult QErr.malformedStatement
    ∧ (queryToolV2 [] failStmt false).outcome.isErrorFlag = some true
    ∧ (queryToolV1 [] failStmt false).outcome
      = Outcome.thrown QErr.malformedStatement :=
  c4_error_result_amended [] failStmt QErr.malformedStatement false rfl

/-! ## Claim C7 -/

/-- Dropping while a predicate holds skips a fully-satisfying prefix. -/
lemma dropWhile_append_all {p : Char → Bool} :
    ∀ (xs ys : Str), xs.all p = true →
      (xs ++ ys).dropWhile p = ys.dropWhile p := by
  intro xs ys h
  induction xs with
  | nil => rfl
  | cons c cs ih =>
    simp only [List.all_cons, Bool.and_eq_true] at h
    simp [List.dropWhile_cons, h.1, ih h.2]

/-- Taking while a predicate holds stops exactly at the first failing
character after a fully-satisfying prefix. -/
lemma takeWhile_append_stop {p : Char → Bool} :
    ∀ (xs : Str) (c : Char) (ys : Str), xs.all p = true → p c = false →
      (xs ++ c :: ys).takeWhile p = xs := by
  intro xs c ys h hc
  induction xs with
  | nil => simp [List.takeWhile_cons, hc]
  | cons d ds ih =>
    simp only [List.all_cons, Bool.and_eq_true] at h
    simp [List.takeWhile_cons, h.1, ih h.2]

/-- Scanning a statement text of the form `pre "t" rest`, with no quote
character in `pre` or in `t`, recovers exactly `t` as the first quoted
identifier. -/
lemma firstQuotedIdent_shape :
    ∀ (pre t rest : Str),
      pre.all (fun c => c != '"') = true →
      t.all (fun c => c != '"') = true →
      firstQuotedIdent (pre ++ ('"' :: (t ++ ('"' :: rest)))) = some t := by
  intro pre t rest hp ht
  unfold firstQuotedIdent
  rw [dropWhile_append_all pre _ hp]
  simp only [List.dropWhile_cons, bne_self_eq_false, Bool.false_eq_true, if_false]
  try dsimp only
  rw [takeWhile_append_stop t '"' rest ht (by decide)]

/-- Claim C7 (counterexample): the table name `a"b`, which contains the
double-quote character, is not rejected: ingestion builds and executes the
existence probe whose text embeds the name, and the quoting of the built
statement is broken — the first quoted identifier of the text is `a`, not
the name itself. -/
theorem c7_identifier_counterexample :
    (processCsvUpload [] (str "a\"b") [[(str "x", str "1")]]).trace.head?
      = some (probeText (str "a\"b"))
    ∧ firstQuotedIdent (probeText (str "a\"b")) = some (str "a")
    ∧ str "a" ≠ str "a\"b" := by
  refine ⟨by decide, by decide, by decide⟩

/-- Claim C7 (amended): every caller-controlled table or column name is
interpolated into statement text wrapped in double quotes, and for a
table name free of the double-quote character the quoting correctly
delimits the name in every statement ingestion builds; but no rejection
is performed — for *any* table name, including one containing a double
quote, ingestion proceeds to build and execute the probe statement
embedding it. -/
theorem c7_identifier_amended :
    ∀ (t : Str) (row : Record) (cols2 : List Str) (db : Db)
      (records : List Record),
      t.all (fun c => c != '"') = true →
      records ≠ [] →
      firstQuotedIdent (probeText t) = some t
      ∧ firstQuotedIdent (createText t (rowKeys row)) = some t
      ∧ firstQuotedIdent (selectByIdText t) = some t
      ∧ firstQuotedIdent (selectByAllText t row) = some t
      ∧ firstQuotedIdent (insertText t row) = some t
      ∧ firstQuotedIdent (updateText t cols2) = some t
      ∧ (processCsvUpload db t records).trace.head? = some (probeText t) := by
  intro t row cols2 db records ht hne
  refine ⟨?_, ?_, ?_, ?_, ?_, ?_, ?_⟩
  · simp only [probeText, quoteId, List.append_assoc, List.cons_append,
      List.singleton_append]
    exact firstQuotedIdent_shape _ t _ (by decide) ht
  · simp only [createText, quoteId, List.append_assoc, List.cons_append,
      List.singleton_append]
    exact firstQuotedIdent_shape _ t _ (by decide) ht
  · simp only [selectByIdText, quoteId, List.append_assoc, List.cons_append,
      List.singleton_append]
    exact firstQuotedIdent_shape _ t _ (by decide) ht
  · simp only [selectByAllText, quoteId, List.append_assoc, List.cons_append,
      List.singleton_append]
    exact firstQuotedIdent_shape _ t _ (by decide) ht
  · simp only [insertText, quoteId, List.append_assoc, List.cons_append,
      List.singleton_append]
    exact firstQuotedIdent_shape _ t _ (by decide) ht
  · simp only [updateText, quoteId, List.append_assoc, List.cons_append,
      List.singleton_append]
    exact firstQuotedIdent_shape _ t _ (by decide) ht
  · cases records with
    | nil => exact absurd rfl hne
    | cons r0 rest =>
      simp only [processCsvUpload]
      cases List.lookup t db with
      | some tbl =>
        dsimp only
        rcases hr : runRecords t tbl (r0 :: rest) with ⟨stmts, res⟩
        cases res with
        | error e => rfl
        | ok q =>
          rcases q with ⟨tbl2, as⟩
          rfl
      | none =>
        dsimp only
        rcases hr : runRecords t ⟨rowKeys r0, []⟩ (r0 :: rest) with ⟨stmts, res⟩
        cases res with
        | error e => rfl
        | ok q =>
          rcases q with ⟨tbl2, as⟩
          rfl

/-- Claim C7 (witness): the amended statement instantiated at the
quote-free table name `users` with a concrete row and batch. -/
theorem c7_identifier_witness :
    firstQuotedIdent (probeText (str "users")) = some (str "users")
    ∧ firstQuotedIdent (createText (str "users") (rowKeys [(str "name", str "x")]))
      = some (str "users")
    ∧ firstQuotedIdent (selectByIdText (str "users")) = some (str "users")
    ∧ firstQuotedIdent (selectByAllText (str "users") [(str "name", str "x")])
      = some (str "users")
    ∧ firstQuotedIdent (insertText (str "users") [(str "name", str "x")])
      = some (str "users")
    ∧ firstQuotedIdent (updateText (str "users") [str "name"])
      = some (str "users")
    ∧ (processCsvUpload [] (str "users") [[(str "name", str "x")]]).trace.head?
      = some (probeText (str "users")) :=
  c7_identifier_amended (str "users") [(str "name", str "x")] [str "name"] []
    [[(str "name", str "x")]] (by decide) (by decide)

/-! ## Placeholder audit

These lemmas justify, from the statement texts themselves, the bind
semantics used by the execution model: with quote-free identifiers the
probe, CREATE TABLE, Policy-B lookup and insert texts require 0
parameters, while the id lookup and the update require exactly 1 — so the
lookup supplied `Object.values(row)`, the insert supplied its values, and
the update supplied `[row.id, ...values]` all fail to bind. -/

/-- Decimal digit characters produced by `Nat.digitChar` below base 10. -/
lemma digitChar_mem (m : Nat) (h : m < 10) :
    Nat.digitChar m ∈ str "0123456789" := by
  interval_cases m <;> decide

/-- Every character `Nat.toDigitsCore` appends below base 10 is plain. -/
lemma toDigitsCore_plain :
    ∀ (f n : Nat) (l : Str), l.all plainChar = true →
      (Nat.toDigitsCore 10 f n l).all plainChar = true := by
  intro f
  induction f with
  | zero => intro n l hl; simpa [Nat.toDigitsCore] using hl
  | succ f ih =>
    intro n l hl
    have hd : plainChar (Nat.digitChar (n % 10)) = true := by
      have h10 : n % 10 < 10 := Nat.mod_lt _ (by decide)
      have hall : (str "0123456789").all plainChar = true := by decide
      exact List.all_eq_true.mp hall _ (digitChar_mem _ h10)
    simp only [Nat.toDigitsCore]
    by_cases hz : n / 10 = 0
    · simp [hz, List.all_cons, hd, hl]
    · simp only [hz, if_neg hz]
      exact ih (n / 10) _ (by simp [List.all_cons, hd, hl])

/-- The decimal rendering of a number contains no quote and no dollar. -/
lemma natStr_plain (k : Nat) : (natStr k).all plainChar = true := by
  have he : natStr k = Nat.toDigitsCore 10 (k + 1) k [] := rfl
  rw [he]
  exact toDigitsCore_plain (k + 1) k [] rfl

/-- Plain characters leave the scanner state unchanged. -/
lemma phFold_plain :
    ∀ (cs : Str) (n : Nat), cs.all plainChar = true →
      cs.foldl phStep (false, false, n) = (false, false, n) := by
  intro cs
  induction cs with
  | nil => intro n _; rfl
  | cons c cs ih =>
    intro n h
    simp only [List.all_cons, Bool.and_eq_true] at h
    rcases h with ⟨hc, hcs⟩
    simp only [plainChar, Bool.and_eq_true, Bool.not_eq_true'] at hc
    simp only [List.foldl_cons]
    have hstep : phStep (false, false, n) c = (false, false, n) := by
      simp [phStep, hc.1, hc.2]
    rw [hstep]
    exact ih n hcs

/-- Inside a quoted identifier no character counts, and the closing quote
clears the quote and pending-dollar flags. -/
lemma phFold_inQuote :
    ∀ (name : Str) (pd : Bool) (n : Nat),
      name.all (fun c => c != '"') = true →
      (name ++ ['"']).foldl phStep (true, pd, n) = (false, false, n) := by
  intro name
  induction name with
  | nil => intro pd n _; rfl
  | cons c cs ih =>
    intro pd n h
    simp only [List.all_cons, Bool.and_eq_true] at h
    rcases h with ⟨hc, hcs⟩
    simp only [List.cons_append, List.foldl_cons]
    have hne : (c == '"') = false := by
      simpa [bne] using hc
    have hstep : phStep (true, pd, n) c = (true, c == '$', n) := by
      simp [phStep, hne]
    rw [hstep]
    exact ih _ n hcs

/-- A whole quoted identifier is neutral for the scanner. -/
lemma neutral_quoteId (t : Str) (ht : t.all (fun c => c != '"') = true) :
    PhNeutral (quoteId t) := by
  intro n
  simp only [quoteId, List.foldl_cons]
  have hstep : phStep (false, false, n) '"' = (true, false, n) := by rfl
  rw [hstep]
  exact phFold_inQuote t false n ht

/-- A plain fragment is neutral. -/
lemma neutral_plain (s : Str) (hs : s.all plainChar = true) : PhNeutral s :=
  fun n => phFold_plain s n hs

/-- Neutral fragments compose. -/
lemma neutral_append {a b : Str} (ha : PhNeutral a) (hb : PhNeutral b) :
    PhNeutral (a ++ b) := by
  intro n
  rw [List.foldl_append, ha n, hb n]

/-- The decimal rendering of a number is neutral. -/
lemma neutral_natStr (k : Nat) : PhNeutral (natStr k) :=
  neutral_plain _ (natStr_plain k)

/-- One `"col" = k` conjunct is neutral: the quoted name is skipped and
the literal number is made of plain digits — no placeholder anywhere. -/
lemma neutral_eqLiteral (c : Str) (k : Nat)
    (hc : c.all (fun ch => ch != '"') = true) :
    PhNeutral (eqLiteralText c k) :=
  neutral_append (neutral_append (neutral_quoteId c hc)
    (neutral_plain _ (by decide))) (neutral_natStr k)

lemma intercalate_nil_pieces (sep : Str) :
    List.intercalate sep ([] : List Str) = [] := rfl

lemma intercalate_single (sep x : Str) : List.intercalate sep [x] = x := by
  simp [List.intercalate, List.intersperse]

lemma intercalate_cons2 (sep x y : Str) (rest : List Str) :
    List.intercalate sep (x :: y :: rest)
      = x ++ sep ++ List.intercalate sep (y :: rest) := by
  simp [List.intercalate, List.intersperse, List.append_assoc]

/-- Joining neutral pieces with a neutral separator is neutral. -/
lemma neutral_intercalate (sep : Str) (hsep : PhNeutral sep) :
    ∀ pieces : List Str, (∀ p ∈ pieces, PhNeutral p) →
      PhNeutral (List.intercalate sep pieces) := by
  intro pieces
  induction pieces with
  | nil => intro _; intro n; rfl
  | cons x rest ih =>
    intro hall
    cases rest with
    | nil =>
      rw [intercalate_single]
      exact hall x (List.mem_cons_self x [])
    | cons y rest2 =>
      rw [intercalate_cons2]
      refine neutral_append (neutral_append ?_ hsep) (ih ?_)
      · exact hall x (List.mem_cons_self _ _)
      · intro p hp
        exact hall p (List.mem_cons_of_mem _ hp)

/-- The second component of an enumerated entry is an element. -/
lemma snd_mem_of_mem_enumFrom :
    ∀ (l : List Str) (i : Nat) (p : Nat × Str), p ∈ l.enumFrom i → p.2 ∈ l := by
  intro l
  induction l with
  | nil => intro i p h; simp [List.enumFrom] at h
  | cons x xs ih =>
    intro i p h
    simp only [List.enumFrom, List.mem_cons] at h
    rcases h with h | h
    · rw [h]
      exact List.mem_cons_self _ _
    · exact List.mem_cons_of_mem _ (ih (i + 1) p h)

/-- The scanner after the ` = $1` tail: exactly one more placeholder. -/
lemma phFold_dollar_tail (n : Nat) :
    (str " = $1").foldl phStep (false, false, n) = (false, false, n + 1) := rfl

/-- Placeholder audit of every statement text ingestion builds, for
quote-free identifiers: the existence probe, the CREATE TABLE, the
Policy-B all-columns lookup and the INSERT require no parameter at all
(their numbers are literals, not placeholders), while the id lookup and
the UPDATE require exactly the one `$1` of their WHERE clause.  The
source nevertheless supplies the full value lists as parameters, so every
Policy-B lookup, insert and update is rejected at bind time. -/
theorem statement_placeholder_audit :
    ∀ (t : Str) (row : Record) (cols2 : List Str),
      t.all (fun c => c != '"') = true →
      (rowKeys row).all (fun k => k.all (fun c => c != '"')) = true →
      cols2.all (fun k => k.all (fun c => c != '"')) = true →
      paramsNeeded (probeText t) = 0
      ∧ paramsNeeded (createText t (rowKeys row)) = 0
      ∧ paramsNeeded (selectByIdText t) = 1
      ∧ paramsNeeded (selectByAllText t row) = 0
      ∧ paramsNeeded (insertText t row) = 0
      ∧ paramsNeeded (updateText t cols2) = 1 := by
  intro t row cols2 ht hrow hcols
  have hkeys : ∀ k ∈ rowKeys row, k.all (fun c => c != '"') = true :=
    List.all_eq_true.mp hrow
  have hcols2 : ∀ k ∈ cols2, k.all (fun c => c != '"') = true :=
    List.all_eq_true.mp hcols
  refine ⟨?_, ?_, ?_, ?_, ?_, ?_⟩
  · simp only [paramsNeeded, probeText]
    rw [List.foldl_append, List.foldl_append,
      neutral_plain (str "SELECT 1 FROM ") (by decide) 0,
      neutral_quoteId t ht 0, neutral_plain (str " LIMIT 1") (by decide) 0]
  · have hpieces : PhNeutral (List.intercalate (str ", ")
        ((rowKeys row).map colDefText)) := by
      refine neutral_intercalate _ (neutral_plain _ (by decide)) _ ?_
      intro p hp
      rcases List.mem_map.mp hp with ⟨k, hk, rfl⟩
      have hkq := hkeys k hk
      unfold colDefText
      by_cases hid : jsToLower k = str "id"
      · rw [if_pos hid]
        exact neutral_append (neutral_quoteId k hkq) (neutral_plain _ (by decide))
      · rw [if_neg hid]
        exact neutral_append (neutral_quoteId k hkq) (neutral_plain _ (by decide))
    simp only [paramsNeeded, createText]
    rw [List.foldl_append, List.foldl_append, List.foldl_append,
      List.foldl_append,
      neutral_plain (str "CREATE TABLE ") (by decide) 0,
      neutral_quoteId t ht 0, neutral_plain (str " (") (by decide) 0,
      hpieces 0, neutral_plain (str ");") (by decide) 0]
  · simp only [paramsNeeded, selectByIdText]
    rw [List.foldl_append, List.foldl_append, List.foldl_append,
      List.foldl_append,
      neutral_plain (str "SELECT * FROM ") (by decide) 0,
      neutral_quoteId t ht 0, neutral_plain (str " WHERE ") (by decide) 0,
      neutral_quoteId (str "id") (by decide) 0, phFold_dollar_tail 0]
  · have hpieces : PhNeutral (whereAllText row) := by
      unfold whereAllText
      refine neutral_intercalate _ (neutral_plain _ (by decide)) _ ?_
      intro p hp
      rcases List.mem_map.mp hp with ⟨q, hq, rfl⟩
      have hqm : q.2 ∈ rowKeys row := snd_mem_of_mem_enumFrom _ 0 q hq
      exact neutral_eqLiteral q.2 (q.1 + 1) (hkeys q.2 hqm)
    simp only [paramsNeeded, selectByAllText, List.foldl_append]
    rw [neutral_plain (str "SELECT * FROM ") (by decide) 0,
      neutral_quoteId t ht 0, neutral_plain (str " WHERE ") (by decide) 0]
    exact congrArg (fun st => st.2.2) (hpieces 0)
  · have hnames : PhNeutral (List.intercalate (str ", ")
        ((rowKeys row).map quoteId)) := by
      refine neutral_intercalate _ (neutral_plain _ (by decide)) _ ?_
      intro p hp
      rcases List.mem_map.mp hp with ⟨k, hk, rfl⟩
      exact neutral_quoteId k (hkeys k hk)
    have hnums : PhNeutral (List.intercalate (str ", ")
        ((rowKeys row).enum.map (fun p => natStr (p.1 + 1)))) := by
      refine neutral_intercalate _ (neutral_plain _ (by decide)) _ ?_
      intro p hp
      rcases List.mem_map.mp hp with ⟨q, hq, rfl⟩
      exact neutral_natStr (q.1 + 1)
    simp only [paramsNeeded, insertText, List.foldl_append]
    rw [neutral_plain (str "INSERT INTO ") (by decide) 0,
      neutral_quoteId t ht 0, neutral_plain (str " (") (by decide) 0,
      hnames 0, neutral_plain (str ") VALUES (") (by decide) 0, hnums 0,
      neutral_plain (str ")") (by decide) 0]
  · have hsets : PhNeutral (List.intercalate (str ", ")
        (cols2.enum.map (fun p => eqLiteralText p.2 (p.1 + 2)))) := by
      refine neutral_intercalate _ (neutral_plain _ (by decide)) _ ?_
      intro p hp
      rcases List.mem_map.mp hp with ⟨q, hq, rfl⟩
      have hqm : q.2 ∈ cols2 := snd_mem_of_mem_enumFrom _ 0 q hq
      exact neutral_eqLiteral q.2 (q.1 + 2) (hcols2 q.2 hqm)
    simp only [paramsNeeded, updateText, List.foldl_append]
    rw [neutral_plain (str "UPDATE ") (by decide) 0,
      neutral_quoteId t ht 0, neutral_plain (str " SET ") (by decide) 0,
      hsets 0, neutral_plain (str " WHERE ") (by decide) 0,
      neutral_quoteId (str "id") (by decide) 0, phFold_dollar_tail 0]

end MEC
